import Mathlib

/-!
# Verification of the foodgram recipe serializer layer

Shallow embedding of `backend/foodgram/api/serializers.py` (the
`RecipeSerializer` write path, validation, image decoding and the
`is_favorited` / `is_in_shopping_cart` flags) together with the pieces of
framework/ORM semantics those methods invoke (`bulk_create` with
`ignore_conflicts`, `get_or_create`, many-to-many `set`/`add`/`clear`,
`UniqueTogetherValidator`).

Database rows are records over `Nat` ids; the database is explicit state
threaded through each operation.  Python strings are sequences of code
points, so string manipulation (`str.split`, `base64.b64decode`) is
modelled on `List Char` with computable, kernel-reducible definitions.
-/

set_option autoImplicit false

namespace Foodgram

/-- One entry of the request's `ingredients` list: the dict
`{'ingredient': <Ingredient pk>, 'amount': n}` produced by
`IngredientInRecipeSerializer` (`id` is sourced to `ingredient`). -/
structure IngredientAmount where
  ingredient : Nat
  amount : Nat
deriving DecidableEq, Repr

/-- `validated_data` for `RecipeSerializer`: the two association lists plus
the scalar recipe fields (`author` is injected by `CurrentUserDefault`). -/
structure ValidatedRecipeData where
  tags : List Nat
  ingredients : List IngredientAmount
  name : String
  author : Nat
  text : String
  cooking_time : Nat
deriving DecidableEq, Repr

/-- A stored `Recipe` row. -/
structure RecipeRow where
  rid : Nat
  name : String
  author : Nat
  text : String
  cooking_time : Nat
deriving DecidableEq, Repr

/-- A stored `IngredientInRecipe` row: `rid` is the primary key. -/
structure JoinRow where
  rid : Nat
  ingredient : Nat
  amount : Nat
deriving DecidableEq, Repr

/-- Write events, used to state in which order `create` touches the
database. -/
inductive Event where
  | recipeCreated (recipe : Nat)
  | joinRowInserted (rowId : Nat)
  | ingredientAssociated (recipe rowId : Nat)
  | tagAssociated (recipe tag : Nat)
deriving DecidableEq, Repr

/-- The database state visible to the serializer: the `Recipe` and
`IngredientInRecipe` tables, the two many-to-many association tables of
`Recipe` (`ingredients`, `tags`), the `Favorite` and `ShoppingCart` tables
(pairs `(user id, recipe id)`), and the auto-increment counters. -/
structure DB where
  recipes : List RecipeRow
  joinRows : List JoinRow
  recipeIngredients : List (Nat × Nat)
  recipeTags : List (Nat × Nat)
  favorites : List (Nat × Nat)
  shoppingCarts : List (Nat × Nat)
  nextRecipeId : Nat
  nextJoinId : Nat
deriving DecidableEq, Repr

/-! ## Many-to-many primitives (Django `RelatedManager` semantics) -/

/-- `instance.<m2m>.add(row)`: inserts the association unless it is already
present (m2m `add` is idempotent). -/
def m2m_add (assoc : List (Nat × Nat)) (left right : Nat) : List (Nat × Nat) :=
  if (left, right) ∈ assoc then assoc else assoc ++ [(left, right)]

/-- `instance.<m2m>.clear()`: drops every association of `left`. -/
def m2m_clear (assoc : List (Nat × Nat)) (left : Nat) : List (Nat × Nat) :=
  assoc.filter (fun a => !(a.1 == left))

/-- `instance.<m2m>.set(rows)`: replaces the associations of `left` by the
given rows. -/
def m2m_set (assoc : List (Nat × Nat)) (left : Nat) (rows : List JoinRow) : List (Nat × Nat) :=
  rows.foldl (fun acc r => m2m_add acc left r.rid) (m2m_clear assoc left)

/-! ## Validation -/

/-- Whether a list of ids contains a repeated element. -/
def has_dublicate : List Nat → Bool
  | [] => false
  | x :: xs => xs.contains x || has_dublicate xs

/-- Modelled from the spec: `api.utils.check_for_dublicates` is imported by
the serializer module but its source is not under `src/`.  The spec says
validation "rejects a request whose ingredient id list or tag id list
contains duplicates, producing a user-facing error keyed to which list
failed", so the helper raises `ValidationError(error_message)` exactly when
`items_list` contains a duplicate. -/
def check_for_dublicates (items_list : List Nat) (error_message : String) :
    Except String Unit :=
  if has_dublicate items_list then Except.error error_message else Except.ok ()

/-- `RecipeSerializer.validate`: collects the ingredient pks of
`data['ingredients']`, checks them and `data['tags']` for duplicates, and
returns `data` unchanged when both checks pass. -/
def RecipeSerializer_validate (data : ValidatedRecipeData) :
    Except String ValidatedRecipeData :=
  let ingredients := data.ingredients.map (fun ingredient => ingredient.ingredient)
  let tags := data.tags
  match check_for_dublicates ingredients "Ингредиенты дублируются" with
  | Except.error e => Except.error e
  | Except.ok _ =>
    match check_for_dublicates tags "Тэги дублируются" with
    | Except.error e => Except.error e
    | Except.ok _ => Except.ok data

/-! ## Python string primitives used by `to_internal_value` -/

/-- `pySplitFuel sep fuel acc s`: worker for Python `str.split(sep)` with a
non-empty separator; `fuel` bounds the recursion by the length of `s` and
makes the definition structurally recursive (hence kernel-computable). -/
def pySplitFuel (sep : List Char) : Nat → List Char → List Char → List (List Char)
  | _, acc, [] => [acc]
  | 0, acc, rest => [acc ++ rest]
  | Nat.succ n, acc, c :: cs =>
    if sep.isPrefixOf (c :: cs) then
      acc :: pySplitFuel sep n [] ((c :: cs).drop sep.length)
    else
      pySplitFuel sep n (acc ++ [c]) cs

/-- Python `s.split(sep)` for a non-empty separator: splits at every
non-overlapping, leftmost occurrence of `sep`. -/
def pySplit (s sep : String) : List String :=
  (pySplitFuel sep.toList s.toList.length [] s.toList).map List.asString

/-- Python `lst[-1]` for the (always non-empty) result of `split`. -/
def pyLast (l : List String) : String := l.getLastD ""

/-- The value of one base64 alphabet character, `none` outside the
alphabet. -/
def base64DecodeChar (c : Char) : Option Nat :=
  if 'A' ≤ c ∧ c ≤ 'Z' then some (c.toNat - 65)
  else if 'a' ≤ c ∧ c ≤ 'z' then some (c.toNat - 97 + 26)
  else if '0' ≤ c ∧ c ≤ '9' then some (c.toNat - 48 + 52)
  else if c = '+' then some 62
  else if c = '/' then some 63
  else none

/-- Packs a list of 6-bit values into bytes; a trailing group of two or
three sextets yields one or two bytes (the padded cases), a trailing single
sextet is invalid. -/
def b64groups : List Nat → Option (List Nat)
  | [] => some []
  | a :: b :: c :: d :: rest =>
    (b64groups rest).map
      (fun bs => (a * 4 + b / 16) :: ((b % 16) * 16 + c / 4) :: ((c % 4) * 64 + d) :: bs)
  | [a, b] => some [a * 4 + b / 16]
  | [a, b, c] => some [a * 4 + b / 16, (b % 16) * 16 + c / 4]
  | [_] => none

/-- `base64.b64decode` on a code-point string (default non-strict mode):
characters outside the alphabet are discarded, the `=` padding must bring
the significant length to a multiple of four, and the 6-bit values are
packed into bytes; `none` models `binascii.Error`. -/
def b64decode (s : String) : Option (List Nat) :=
  let cs := s.toList.filter (fun c => (base64DecodeChar c).isSome || c == '=')
  let body := cs.takeWhile (fun c => !(c == '='))
  let pad := cs.length - body.length
  if pad ≤ 2 && (body.length + pad) % 4 == 0 then
    b64groups (body.filterMap base64DecodeChar)
  else none

/-- Python exceptions that can escape `to_internal_value`: `ValueError`
from tuple unpacking and `binascii.Error` from `b64decode`.  Neither is a
DRF `ValidationError`, so both surface as unhandled server errors. -/
inductive PyError where
  | valueError (msg : String)
  | binasciiError (msg : String)
deriving DecidableEq, Repr

/-- The `ContentFile` built for `data['image']`: decoded bytes plus the
generated file name. -/
structure ContentFile where
  content : List Nat
  name : String
deriving DecidableEq, Repr

/-- `RecipeSerializer.to_internal_value`, restricted to its one custom
effect: rewriting `data['image']`.  `uuid4` is the freshly generated
identifier (`str(uuid4())`).  Returns the replacement value of the image
field (`none` when the key is absent, in which case the dict is passed to
`super()` untouched), or the Python exception the method raises. -/
def RecipeSerializer_to_internal_value (uuid4 : String) (image : Option String) :
    Except PyError (Option ContentFile) :=
  match image with
  | none => Except.ok none
  | some img =>
    match pySplit img ";base64," with
    | [fmt, imgstr] =>
      let ext := pyLast (pySplit fmt "/")
      let file_name := uuid4
      match b64decode imgstr with
      | some bytes =>
        Except.ok (some { content := bytes, name := file_name ++ "." ++ ext })
      | none => Except.error (PyError.binasciiError "Invalid base64-encoded string")
    | parts =>
      if parts.length < 2 then
        Except.error (PyError.valueError "not enough values to unpack (expected 2, got 1)")
      else
        Except.error (PyError.valueError "too many values to unpack (expected 2)")

/-! ## The write path: `create` and `update` -/

/-- `IngredientInRecipe.objects.get_or_create(**ingredient)`: returns the
first row matching both fields, or inserts a fresh row with the next
primary key.  Result: updated table state and the pk of the returned
row. -/
def get_or_create (db : DB) (p : IngredientAmount) : DB × Nat :=
  match db.joinRows.find? (fun r => r.ingredient == p.ingredient && r.amount == p.amount) with
  | some r => (db, r.rid)
  | none =>
    ({ db with
        joinRows := db.joinRows ++ [⟨db.nextJoinId, p.ingredient, p.amount⟩],
        nextJoinId := db.nextJoinId + 1 },
     db.nextJoinId)

/-- `IngredientInRecipe.objects.bulk_create(rows, ignore_conflicts=True)`:
inserts the candidate rows in order, skipping every row that conflicts on
the table's unique `(ingredient, amount)` constraint with an existing row
(modelled from the spec insofar as the constraint lives in the
`recipies.models` module, which is not under `src/`; the spec calls these
writes upserts and the code passes `ignore_conflicts=True`).  Also returns
the insertion events. -/
def bulk_create_ignore_conflicts : DB → List IngredientAmount → DB × List Event
  | db, [] => (db, [])
  | db, p :: ps =>
    if db.joinRows.any (fun r => r.ingredient == p.ingredient && r.amount == p.amount) then
      bulk_create_ignore_conflicts db ps
    else
      let row : JoinRow := ⟨db.nextJoinId, p.ingredient, p.amount⟩
      let rest := bulk_create_ignore_conflicts
        { db with joinRows := db.joinRows ++ [row], nextJoinId := db.nextJoinId + 1 } ps
      (rest.1, Event.joinRowInserted row.rid :: rest.2)

/-- The tag-association loop: adds every tag of `tags` to the instance's
tag m2m, in order. -/
def add_tags_loop (inst : Nat) : DB → List Nat → DB
  | db, [] => db
  | db, t :: ts => add_tags_loop inst { db with recipeTags := m2m_add db.recipeTags inst t } ts

/-- Modelled from the spec: `api.utils.add_tags_to_instance` is imported by
the serializer module but its source is not under `src/`.  The spec says
create/update "associate each supplied tag" with the instance, so the
helper adds every tag of `tags` to the instance's tag m2m.  Also returns
the association events. -/
def add_tags_to_instance (db : DB) (inst : Nat) (tags : List Nat) : DB × List Event :=
  (add_tags_loop inst db tags, tags.map (fun t => Event.tagAssociated inst t))

/-- `Recipe.objects.create(**validated_data)`: inserts the recipe row with
the next primary key; returns the new state and the new pk. -/
def insert_recipe (db : DB) (vd : ValidatedRecipeData) : DB × Nat :=
  ({ db with
      recipes := db.recipes ++ [⟨db.nextRecipeId, vd.name, vd.author, vd.text, vd.cooking_time⟩],
      nextRecipeId := db.nextRecipeId + 1 },
   db.nextRecipeId)

/-- The re-selection queryset of `create`:
`IngredientInRecipe.objects.filter(ingredient__in=[...], amount__in=[...])`
— note the two `__in` filters are independent, a cross-product condition. -/
def create_queryset (db : DB) (ingredients : List IngredientAmount) : List JoinRow :=
  db.joinRows.filter (fun r =>
    (ingredients.map (fun i => i.ingredient)).contains r.ingredient &&
    (ingredients.map (fun i => i.amount)).contains r.amount)

/-- `new_recipe.ingredients.set(queryset)`. -/
def set_recipe_ingredients (db : DB) (recipe : Nat) (rows : List JoinRow) : DB :=
  { db with recipeIngredients := m2m_set db.recipeIngredients recipe rows }

/-- `RecipeSerializer.create`: pops `tags` and `ingredients`, inserts the
recipe row, bulk-creates the join rows with `ignore_conflicts=True`,
re-selects the join table with
`filter(ingredient__in=..., amount__in=...)`, sets the recipe's ingredient
m2m to that queryset, then associates the tags.  Returns the final state,
the new recipe's pk and the ordered write trace. -/
def RecipeSerializer_create (db : DB) (vd : ValidatedRecipeData) : DB × Nat × List Event :=
  let inserted := insert_recipe db vd
  let bulk := bulk_create_ignore_conflicts inserted.1 vd.ingredients
  let ingredients_queryset := create_queryset bulk.1 vd.ingredients
  let db2 := set_recipe_ingredients bulk.1 inserted.2 ingredients_queryset
  let tagged := add_tags_to_instance db2 inserted.2 vd.tags
  (tagged.1, inserted.2,
    Event.recipeCreated inserted.2 ::
      (bulk.2 ++
        ingredients_queryset.map (fun r => Event.ingredientAssociated inserted.2 r.rid) ++
        tagged.2))

/-- The `for ingredient in ingredients` loop of `RecipeSerializer.update`:
`get_or_create` each pair and `add` the resulting row to the instance's
ingredient m2m. -/
def update_ingredients_loop (inst : Nat) : DB → List IngredientAmount → DB
  | db, [] => db
  | db, p :: ps =>
    let gc := get_or_create db p
    update_ingredients_loop inst
      { gc.1 with recipeIngredients := m2m_add gc.1.recipeIngredients inst gc.2 } ps

/-- `instance.tags.clear()`. -/
def clear_tags (db : DB) (inst : Nat) : DB :=
  { db with recipeTags := m2m_clear db.recipeTags inst }

/-- `instance.ingredients.clear()`. -/
def clear_ingredients (db : DB) (inst : Nat) : DB :=
  { db with recipeIngredients := m2m_clear db.recipeIngredients inst }

/-- `super().update(instance, validated_data)`: writes the scalar fields
remaining in `validated_data` onto the instance row. -/
def update_scalar_fields (db : DB) (inst : Nat) (vd : ValidatedRecipeData) : DB :=
  { db with
      recipes := db.recipes.map (fun r =>
        if r.rid == inst then
          { r with name := vd.name, author := vd.author, text := vd.text,
                   cooking_time := vd.cooking_time }
        else r) }

/-- `RecipeSerializer.update`: clears and re-adds the tag associations,
clears the ingredient associations and rebuilds them with
`get_or_create`/`add`, then `super().update` writes the remaining scalar
fields onto the instance row. -/
def RecipeSerializer_update (db : DB) (inst : Nat) (vd : ValidatedRecipeData) : DB :=
  update_scalar_fields
    (update_ingredients_loop inst
      (clear_ingredients (add_tags_loop inst (clear_tags db inst) vd.tags) inst)
      vd.ingredients)
    inst vd

/-! ## The validator pipeline around `create` -/

/-- The `UniqueTogetherValidator` declared in `RecipeSerializer.Meta`:
rejects the payload when some stored recipe already has the same
`(name, author)` pair. -/
def unique_together_check (db : DB) (name : String) (author : Nat) : Except String Unit :=
  if db.recipes.any (fun r => r.name == name && r.author == author) then
    Except.error "Вы уже создавали такой рецепт."
  else Except.ok ()

/-- The DRF pipeline for a create request after `to_internal_value`:
`run_validators` (the `Meta` validators, here `UniqueTogetherValidator`),
then `validate`, and only on success `create`.  On a validation error the
database is returned unchanged. -/
def run_create (db : DB) (vd : ValidatedRecipeData) : DB × Except String Nat :=
  match unique_together_check db vd.name vd.author with
  | Except.error e => (db, Except.error e)
  | Except.ok _ =>
    match RecipeSerializer_validate vd with
    | Except.error e => (db, Except.error e)
    | Except.ok vd2 =>
      let res := RecipeSerializer_create db vd2
      (res.1, Except.ok res.2.1)

/-! ## The serializer method fields -/

/-- `RecipeSerializer.get_is_favorited`:
`Favorite.objects.filter(user=request.user.id, recipe=obj.id).exists()`.
An anonymous request has `user.id = None`, which matches no stored row
(the `user` foreign key is non-null). -/
def get_is_favorited (db : DB) (request_user_id : Option Nat) (obj_id : Nat) : Bool :=
  db.favorites.any (fun f => some f.1 == request_user_id && f.2 == obj_id)

/-- `RecipeSerializer.get_is_in_shopping_cart`: same query against the
`ShoppingCart` table. -/
def get_is_in_shopping_cart (db : DB) (request_user_id : Option Nat) (obj_id : Nat) : Bool :=
  db.shoppingCarts.any (fun f => some f.1 == request_user_id && f.2 == obj_id)

/-! ## Invariants -/

/-- Primary keys of the `IngredientInRecipe` table are distinct and below
the auto-increment counter. -/
def JoinWf (db : DB) : Prop :=
  (db.joinRows.map (fun r => r.rid)).Nodup ∧ ∀ r ∈ db.joinRows, r.rid < db.nextJoinId

/-- No two `IngredientInRecipe` rows share an `(ingredient, amount)` pair —
the unique constraint behind `ignore_conflicts`/`get_or_create`. -/
def pairsNodup (l : List JoinRow) : Prop :=
  (l.map (fun r => (r.ingredient, r.amount))).Nodup

/-- The rows of a join table holding exactly the pair `(i, a)`. -/
def rowsWithPair (l : List JoinRow) (i a : Nat) : List JoinRow :=
  l.filter (fun r => r.ingredient == i && r.amount == a)

/-- No two stored recipes share a `(name, author)` pair. -/
def namesUniquePerAuthor (l : List RecipeRow) : Prop :=
  (l.map (fun r => (r.name, r.author))).Nodup

/-- Events that write the ingredient side: join-row inserts and
ingredient-m2m associations. -/
def isIngredientWrite : Event → Bool
  | Event.joinRowInserted _ => true
  | Event.ingredientAssociated _ _ => true
  | _ => false

/-- Events that write the tag side. -/
def isTagWrite : Event → Bool
  | Event.tagAssociated _ _ => true
  | _ => false

/-! ## Helper lemmas -/

theorem has_dublicate_eq_false_iff (l : List Nat) : has_dublicate l = false ↔ l.Nodup := by
  induction l with
  | nil => simp [has_dublicate]
  | cons x xs ih =>
    simp [has_dublicate, List.nodup_cons, ih, Bool.or_eq_false_iff]

theorem mem_m2m_add {assoc : List (Nat × Nat)} {left right : Nat} {x : Nat × Nat} :
    x ∈ m2m_add assoc left right ↔ x ∈ assoc ∨ x = (left, right) := by
  unfold m2m_add
  split
  · next h =>
    constructor
    · exact Or.inl
    · rintro (hx | rfl)
      · exact hx
      · exact h
  · simp

theorem not_mem_m2m_clear {assoc : List (Nat × Nat)} {left : Nat} {x : Nat} :
    (left, x) ∉ m2m_clear assoc left := by
  unfold m2m_clear
  intro h
  simp [List.mem_filter] at h

theorem mem_m2m_clear {assoc : List (Nat × Nat)} {left : Nat} {x : Nat × Nat} :
    x ∈ m2m_clear assoc left ↔ x ∈ assoc ∧ x.1 ≠ left := by
  unfold m2m_clear
  simp [List.mem_filter]

/-! ## C3: duplicate validation -/

/-- C3: `RecipeSerializer.validate` errors exactly when the ingredient id
list or the tag list contains a duplicate; the message names the failing
list (ingredients checked first); with no duplicates it returns the data
unchanged. -/
theorem validate_rejects_exactly_duplicates (data : ValidatedRecipeData) :
    (RecipeSerializer_validate data = Except.ok data ↔
      (data.ingredients.map (fun i => i.ingredient)).Nodup ∧ data.tags.Nodup) ∧
    (¬ (data.ingredients.map (fun i => i.ingredient)).Nodup →
      RecipeSerializer_validate data = Except.error "Ингредиенты дублируются") ∧
    ((data.ingredients.map (fun i => i.ingredient)).Nodup → ¬ data.tags.Nodup →
      RecipeSerializer_validate data = Except.error "Тэги дублируются") := by
  have hi := has_dublicate_eq_false_iff (data.ingredients.map (fun i => i.ingredient))
  have ht := has_dublicate_eq_false_iff data.tags
  unfold RecipeSerializer_validate check_for_dublicates
  cases hhi : has_dublicate (data.ingredients.map (fun i => i.ingredient)) <;>
    cases hht : has_dublicate data.tags <;>
      rw [hhi] at hi <;> rw [hht] at ht <;> simp_all

/-- C3 witness: a concrete duplicate-free payload passes validation. -/
theorem validate_rejects_exactly_duplicates_witness :
    RecipeSerializer_validate
        { tags := [4, 5], ingredients := [⟨1, 10⟩, ⟨2, 20⟩], name := "soup",
          author := 3, text := "boil", cooking_time := 15 } =
      Except.ok
        { tags := [4, 5], ingredients := [⟨1, 10⟩, ⟨2, 20⟩], name := "soup",
          author := 3, text := "boil", cooking_time := 15 } :=
  (validate_rejects_exactly_duplicates _).1.mpr (by constructor <;> decide)

/-! ## C4: image decoding -/

/-- C4 counterexample: an image value that does contain `';base64,'` (twice)
makes `to_internal_value` raise `ValueError` from the two-element unpacking
instead of producing any file, so the claim as stated fails on it. -/
theorem image_double_marker_not_decoded :
    2 ≤ (pySplit "data:image/png;base64,AA==;base64,AA==" ";base64,").length ∧
    RecipeSerializer_to_internal_value "uuid"
        (some "data:image/png;base64,AA==;base64,AA==") =
      Except.error (PyError.valueError "too many values to unpack (expected 2)") :=
  ⟨by decide, rfl⟩

/-- C4 (amended): when the image value contains `';base64,'` exactly once
(it splits into exactly two parts) and the part after it is valid base64,
the field becomes a file whose content is the base64 decoding of that part
and whose name is the generated identifier, a dot, and the extension after
the last `'/'` of the part before the marker. -/
theorem to_internal_value_decodes_image (uuid4 img fmt imgstr : String)
    (bytes : List Nat)
    (hsplit : pySplit img ";base64," = [fmt, imgstr])
    (hdecode : b64decode imgstr = some bytes) :
    RecipeSerializer_to_internal_value uuid4 (some img) =
      Except.ok (some { content := bytes,
                        name := uuid4 ++ "." ++ pyLast (pySplit fmt "/") }) := by
  simp only [RecipeSerializer_to_internal_value]
  rw [hsplit]
  simp [hdecode]

/-- C4 witness: a concrete png data-URI decodes to its payload bytes with
the `.png` extension preserved. -/
theorem to_internal_value_decodes_image_witness :
    RecipeSerializer_to_internal_value "u" (some "data:image/png;base64,aGk=") =
      Except.ok (some { content := [104, 105], name := "u.png" }) := by
  have h := to_internal_value_decodes_image "u" "data:image/png;base64,aGk="
    "data:image/png" "aGk=" [104, 105] (by decide) (by decide)
  exact h.trans rfl

/-! ## C8: malformed image values -/

/-- C8: an image value with no `';base64,'` marker (its split is the
singleton list) makes `to_internal_value` raise the `ValueError` of the
failed two-element unpacking — a plain Python exception, not a DRF
validation error. -/
theorem malformed_image_raises_value_error (uuid4 img : String)
    (h : pySplit img ";base64," = [img]) :
    RecipeSerializer_to_internal_value uuid4 (some img) =
      Except.error (PyError.valueError "not enough values to unpack (expected 2, got 1)") := by
  simp only [RecipeSerializer_to_internal_value]
  rw [h]
  simp

/-- C8 witness: a plain file name is not a data URI and raises. -/
theorem malformed_image_raises_value_error_witness :
    RecipeSerializer_to_internal_value "u" (some "plain.jpg") =
      Except.error (PyError.valueError "not enough values to unpack (expected 2, got 1)") :=
  malformed_image_raises_value_error "u" "plain.jpg" (by decide)

/-! ## C9: the two request-dependent flags -/

/-- C9: `is_favorited` is true iff a `Favorite` row links the requesting
user's id to the recipe, `is_in_shopping_cart` likewise for `ShoppingCart`,
and an anonymous request (`user.id = None`) always gets `false` without
failing. -/
theorem favorite_and_cart_flags (db : DB) (uid : Option Nat) (rid : Nat) :
    (get_is_favorited db uid rid = true ↔ ∃ u, uid = some u ∧ (u, rid) ∈ db.favorites) ∧
    (get_is_in_shopping_cart db uid rid = true ↔
      ∃ u, uid = some u ∧ (u, rid) ∈ db.shoppingCarts) ∧
    get_is_favorited db none rid = false ∧
    get_is_in_shopping_cart db none rid = false := by
  refine ⟨?_, ?_, ?_, ?_⟩
  · simp only [get_is_favorited, List.any_eq_true, Bool.and_eq_true, beq_iff_eq]
    constructor
    · rintro ⟨⟨u, r⟩, hmem, h1, h2⟩
      exact ⟨u, h1.symm, by simpa [← h2] using hmem⟩
    · rintro ⟨u, rfl, hmem⟩
      exact ⟨(u, rid), hmem, rfl, rfl⟩
  · simp only [get_is_in_shopping_cart, List.any_eq_true, Bool.and_eq_true, beq_iff_eq]
    constructor
    · rintro ⟨⟨u, r⟩, hmem, h1, h2⟩
      exact ⟨u, h1.symm, by simpa [← h2] using hmem⟩
    · rintro ⟨u, rfl, hmem⟩
      exact ⟨(u, rid), hmem, rfl, rfl⟩
  · simp [get_is_favorited]
  · simp [get_is_in_shopping_cart]

/-- C9 witness: with one favorite row `(3, 9)`, user 3 sees the flag and an
anonymous request does not. -/
theorem favorite_and_cart_flags_witness :
    get_is_favorited
        { recipes := [], joinRows := [], recipeIngredients := [], recipeTags := [],
          favorites := [(3, 9)], shoppingCarts := [], nextRecipeId := 0, nextJoinId := 0 }
        none 9 = false :=
  (favorite_and_cart_flags _ none 9).2.2.1

/-! ## C1: the cross-product re-selection in `create` -/

/-- A database holding one pre-existing join row with `(ingredient, amount)
= (1, 2)` and nothing else. -/
def crossProductDb : DB :=
  { recipes := [], joinRows := [⟨0, 1, 2⟩], recipeIngredients := [],
    recipeTags := [], favorites := [], shoppingCarts := [],
    nextRecipeId := 10, nextJoinId := 5 }

/-- A validated create request supplying the pairs `(1, 1)` and `(2, 2)` —
and in particular not `(1, 2)`. -/
def crossProductReq : ValidatedRecipeData :=
  { tags := [7], ingredients := [⟨1, 1⟩, ⟨2, 2⟩], name := "x", author := 3,
    text := "t", cooking_time := 1 }

/-- C1: `create` re-selects join rows with
`filter(ingredient__in=..., amount__in=...)`, a cross-product condition, so
on `crossProductDb`/`crossProductReq` the pre-existing row with pk 0 and
pair `(1, 2)` — a pair the request never supplied — is associated with the
new recipe.  This contradicts the claim (and the spec's write contract)
that exactly the supplied pairs end up associated. -/
theorem create_associates_unsupplied_pair :
    (RecipeSerializer_create crossProductDb crossProductReq).1.recipeIngredients.contains
        ((RecipeSerializer_create crossProductDb crossProductReq).2.1, 0) = true ∧
    (∀ p ∈ crossProductReq.ingredients, ¬(p.ingredient = 1 ∧ p.amount = 2)) ∧
    crossProductDb.joinRows = [⟨0, 1, 2⟩] := by
  refine ⟨?_, ?_, ?_⟩ <;> decide

/-! ## C6: write order on create -/

theorem bulk_create_events_inserted (ps : List IngredientAmount) :
    ∀ db : DB, ∀ e ∈ (bulk_create_ignore_conflicts db ps).2, ∃ j, e = Event.joinRowInserted j := by
  induction ps with
  | nil =>
    intro db e he
    simp [bulk_create_ignore_conflicts] at he
  | cons p ps ih =>
    intro db e he
    rw [bulk_create_ignore_conflicts] at he
    split at he
    · exact ih db e he
    · simp only [List.mem_cons] at he
      rcases he with rfl | he
      · exact ⟨_, rfl⟩
      · exact ih _ e he

/-- C6: the write trace of `create` starts with the recipe insert, followed
by the ingredient-side writes (join-row inserts and associations), followed
by the tag associations; in particular no ingredient or tag association
precedes the recipe row. -/
theorem create_write_order (db : DB) (vd : ValidatedRecipeData) :
    ∃ ingEvents tagEvents,
      (RecipeSerializer_create db vd).2.2 =
        Event.recipeCreated ((RecipeSerializer_create db vd).2.1) ::
          (ingEvents ++ tagEvents) ∧
      (∀ e ∈ ingEvents, isIngredientWrite e = true) ∧
      (∀ e ∈ tagEvents, isTagWrite e = true) := by
  refine ⟨(bulk_create_ignore_conflicts (insert_recipe db vd).1 vd.ingredients).2 ++
      (create_queryset (bulk_create_ignore_conflicts (insert_recipe db vd).1 vd.ingredients).1
        vd.ingredients).map
        (fun r => Event.ingredientAssociated (insert_recipe db vd).2 r.rid),
    vd.tags.map (fun t => Event.tagAssociated (insert_recipe db vd).2 t), ?_, ?_, ?_⟩
  · rfl
  · intro e he
    rcases List.mem_append.mp he with h | h
    · obtain ⟨j, rfl⟩ := bulk_create_events_inserted vd.ingredients _ e h
      rfl
    · obtain ⟨r, _, rfl⟩ := List.mem_map.mp h
      rfl
  · intro e he
    obtain ⟨t, _, rfl⟩ := List.mem_map.mp he
    rfl

/-! ## Lemmas about `get_or_create` -/

theorem get_or_create_frame (db : DB) (p : IngredientAmount) :
    (get_or_create db p).1.recipeIngredients = db.recipeIngredients ∧
    (get_or_create db p).1.recipeTags = db.recipeTags ∧
    (get_or_create db p).1.recipes = db.recipes := by
  unfold get_or_create
  split <;> exact ⟨rfl, rfl, rfl⟩

theorem get_or_create_mono (db : DB) (p : IngredientAmount) :
    ∀ r ∈ db.joinRows, r ∈ (get_or_create db p).1.joinRows := by
  unfold get_or_create
  split
  · intro r hr; exact hr
  · intro r hr; simp [hr]

theorem get_or_create_returns (db : DB) (p : IngredientAmount) :
    ∃ r ∈ (get_or_create db p).1.joinRows,
      r.rid = (get_or_create db p).2 ∧
      r.ingredient = p.ingredient ∧ r.amount = p.amount := by
  unfold get_or_create
  split
  · next r hfind =>
    have hmem := List.mem_of_find?_eq_some hfind
    have hp := List.find?_some hfind
    simp only [Bool.and_eq_true, beq_iff_eq] at hp
    exact ⟨r, hmem, rfl, hp.1, hp.2⟩
  · exact ⟨⟨db.nextJoinId, p.ingredient, p.amount⟩, by simp, rfl, rfl, rfl⟩

theorem get_or_create_sub (db : DB) (p : IngredientAmount) :
    ∀ r ∈ (get_or_create db p).1.joinRows,
      r ∈ db.joinRows ∨ (r.ingredient = p.ingredient ∧ r.amount = p.amount) := by
  unfold get_or_create
  split
  · intro r hr; exact Or.inl hr
  · intro r hr
    simp only [List.mem_append, List.mem_singleton] at hr
    rcases hr with hr | rfl
    · exact Or.inl hr
    · exact Or.inr ⟨rfl, rfl⟩

theorem get_or_create_wf (db : DB) (p : IngredientAmount) (h : JoinWf db) :
    JoinWf (get_or_create db p).1 := by
  obtain ⟨h1, h2⟩ := h
  unfold get_or_create
  split
  · exact ⟨h1, h2⟩
  · constructor
    · rw [List.map_append, List.nodup_append]
      refine ⟨h1, List.nodup_singleton _, ?_⟩
      intro x hx hx2
      simp only [List.map_cons, List.map_nil, List.mem_singleton] at hx2
      obtain ⟨r, hr, hrx⟩ := List.mem_map.mp hx
      subst hx2
      exact absurd (hrx ▸ h2 r hr) (lt_irrefl _)
    · intro r hr
      simp only [List.mem_append, List.mem_singleton] at hr
      rcases hr with hr | rfl
      · exact Nat.lt_succ_of_lt (h2 r hr)
      · exact Nat.lt_succ_self _

theorem get_or_create_pairs (db : DB) (p : IngredientAmount) (h : pairsNodup db.joinRows) :
    pairsNodup (get_or_create db p).1.joinRows := by
  unfold get_or_create
  split
  · exact h
  · next hfind =>
    have hall := List.find?_eq_none.mp hfind
    unfold pairsNodup at h ⊢
    rw [List.map_append, List.nodup_append]
    refine ⟨h, List.nodup_singleton _, ?_⟩
    intro x hx hx2
    simp only [List.map_cons, List.map_nil, List.mem_singleton] at hx2
    obtain ⟨r, hr, hrx⟩ := List.mem_map.mp hx
    subst hx2
    have := hall r hr
    simp only [Bool.and_eq_true, beq_iff_eq, not_and] at this
    have h1 : r.ingredient = p.ingredient := congrArg Prod.fst hrx
    have h2 : r.amount = p.amount := congrArg Prod.snd hrx
    exact this h1 h2

theorem get_or_create_rowsWithPair (db : DB) (p : IngredientAmount) (i a : Nat)
    (h : ∃ r ∈ db.joinRows, r.ingredient = i ∧ r.amount = a) :
    rowsWithPair (get_or_create db p).1.joinRows i a = rowsWithPair db.joinRows i a := by
  unfold get_or_create
  split
  · rfl
  · next hfind =>
    have hall := List.find?_eq_none.mp hfind
    unfold rowsWithPair
    rw [List.filter_append]
    have : List.filter (fun r => r.ingredient == i && r.amount == a)
        [(⟨db.nextJoinId, p.ingredient, p.amount⟩ : JoinRow)] = [] := by
      simp only [List.filter_cons, List.filter_nil, Bool.and_eq_true, beq_iff_eq]
      split
      · next hcond =>
        obtain ⟨r, hr, hri, hra⟩ := h
        have := hall r hr
        simp only [Bool.and_eq_true, beq_iff_eq, not_and] at this
        exact absurd (hra.trans hcond.2.symm) (this (hri.trans hcond.1.symm))
      · rfl
    rw [this, List.append_nil]

/-! ## Lemmas about `bulk_create_ignore_conflicts` -/

theorem bulk_create_frame (ps : List IngredientAmount) :
    ∀ db : DB,
      (bulk_create_ignore_conflicts db ps).1.recipes = db.recipes ∧
      (bulk_create_ignore_conflicts db ps).1.recipeIngredients = db.recipeIngredients ∧
      (bulk_create_ignore_conflicts db ps).1.recipeTags = db.recipeTags := by
  induction ps with
  | nil => intro db; exact ⟨rfl, rfl, rfl⟩
  | cons p ps ih =>
    intro db
    rw [bulk_create_ignore_conflicts]
    split
    · exact ih db
    · exact ih _

theorem bulk_create_mono (ps : List IngredientAmount) :
    ∀ db : DB, ∀ r ∈ db.joinRows, r ∈ (bulk_create_ignore_conflicts db ps).1.joinRows := by
  induction ps with
  | nil => intro db r hr; exact hr
  | cons p ps ih =>
    intro db r hr
    rw [bulk_create_ignore_conflicts]
    split
    · exact ih db r hr
    · exact ih _ r (by simp [hr])

theorem bulk_create_pairs (ps : List IngredientAmount) :
    ∀ db : DB, pairsNodup db.joinRows →
      pairsNodup (bulk_create_ignore_conflicts db ps).1.joinRows := by
  induction ps with
  | nil => intro db h; exact h
  | cons p ps ih =>
    intro db h
    rw [bulk_create_ignore_conflicts]
    split
    · exact ih db h
    · next hany =>
      refine ih _ ?_
      unfold pairsNodup at h ⊢
      rw [List.map_append, List.nodup_append]
      refine ⟨h, List.nodup_singleton _, ?_⟩
      intro x hx hx2
      simp only [List.map_cons, List.map_nil, List.mem_singleton] at hx2
      obtain ⟨r, hr, hrx⟩ := List.mem_map.mp hx
      subst hx2
      refine hany ?_
      rw [List.any_eq_true]
      refine ⟨r, hr, ?_⟩
      simp only [Bool.and_eq_true, beq_iff_eq]
      exact ⟨congrArg Prod.fst hrx, congrArg Prod.snd hrx⟩

theorem bulk_create_rowsWithPair (ps : List IngredientAmount) :
    ∀ db : DB, ∀ i a : Nat,
      (∃ r ∈ db.joinRows, r.ingredient = i ∧ r.amount = a) →
      rowsWithPair (bulk_create_ignore_conflicts db ps).1.joinRows i a =
        rowsWithPair db.joinRows i a := by
  induction ps with
  | nil => intro db i a _; rfl
  | cons p ps ih =>
    intro db i a h
    rw [bulk_create_ignore_conflicts]
    split
    · exact ih db i a h
    · next hany =>
      have hnew : List.filter (fun r => r.ingredient == i && r.amount == a)
          [(⟨db.nextJoinId, p.ingredient, p.amount⟩ : JoinRow)] = [] := by
        simp only [List.filter_cons, List.filter_nil, Bool.and_eq_true, beq_iff_eq]
        split
        · next hcond =>
          obtain ⟨r, hr, hri, hra⟩ := h
          exfalso
          refine hany ?_
          rw [List.any_eq_true]
          refine ⟨r, hr, ?_⟩
          simp only [Bool.and_eq_true, beq_iff_eq]
          exact ⟨hri.trans hcond.1.symm, hra.trans hcond.2.symm⟩
        · rfl
      have hex : ∃ r ∈ ({ db with
            joinRows := db.joinRows ++ [⟨db.nextJoinId, p.ingredient, p.amount⟩],
            nextJoinId := db.nextJoinId + 1 } : DB).joinRows,
          r.ingredient = i ∧ r.amount = a := by
        obtain ⟨r, hr, hri, hra⟩ := h
        exact ⟨r, by simp [hr], hri, hra⟩
      rw [ih _ i a hex]
      unfold rowsWithPair
      rw [List.filter_append, hnew, List.append_nil]

/-! ## Lemmas about `add_tags_loop` -/

theorem add_tags_loop_frame (inst : Nat) (tags : List Nat) :
    ∀ db : DB,
      (add_tags_loop inst db tags).recipes = db.recipes ∧
      (add_tags_loop inst db tags).joinRows = db.joinRows ∧
      (add_tags_loop inst db tags).recipeIngredients = db.recipeIngredients ∧
      (add_tags_loop inst db tags).nextJoinId = db.nextJoinId := by
  induction tags with
  | nil => intro db; exact ⟨rfl, rfl, rfl, rfl⟩
  | cons t ts ih => intro db; exact ih _

theorem add_tags_loop_mem (inst : Nat) (tags : List Nat) :
    ∀ db : DB, ∀ x : Nat × Nat,
      (x ∈ (add_tags_loop inst db tags).recipeTags ↔
        x ∈ db.recipeTags ∨ ∃ t ∈ tags, x = (inst, t)) := by
  induction tags with
  | nil => intro db x; simp [add_tags_loop]
  | cons t ts ih =>
    intro db x
    rw [add_tags_loop, ih]
    constructor
    · rintro (hx | ⟨t2, ht2, rfl⟩)
      · rcases mem_m2m_add.mp hx with hx | rfl
        · exact Or.inl hx
        · exact Or.inr ⟨t, List.mem_cons_self t ts, rfl⟩
      · exact Or.inr ⟨t2, List.mem_cons_of_mem t ht2, rfl⟩
    · rintro (hx | ⟨t2, ht2, rfl⟩)
      · exact Or.inl (mem_m2m_add.mpr (Or.inl hx))
      · rcases List.mem_cons.mp ht2 with rfl | ht2
        · exact Or.inl (mem_m2m_add.mpr (Or.inr rfl))
        · exact Or.inr ⟨t2, ht2, rfl⟩

/-! ## Lemmas about `update_ingredients_loop` -/

theorem update_loop_frame (inst : Nat) (ps : List IngredientAmount) :
    ∀ db : DB,
      (update_ingredients_loop inst db ps).recipeTags = db.recipeTags ∧
      (update_ingredients_loop inst db ps).recipes = db.recipes := by
  induction ps with
  | nil => intro db; exact ⟨rfl, rfl⟩
  | cons p ps ih =>
    intro db
    rw [update_ingredients_loop]
    obtain ⟨h1, h2⟩ := ih { (get_or_create db p).1 with
      recipeIngredients := m2m_add (get_or_create db p).1.recipeIngredients inst
        (get_or_create db p).2 }
    obtain ⟨_, g2, g3⟩ := get_or_create_frame db p
    exact ⟨h1.trans g2, h2.trans g3⟩

theorem update_loop_rows_mono (inst : Nat) (ps : List IngredientAmount) :
    ∀ db : DB, ∀ r ∈ db.joinRows, r ∈ (update_ingredients_loop inst db ps).joinRows := by
  induction ps with
  | nil => intro db r hr; exact hr
  | cons p ps ih =>
    intro db r hr
    rw [update_ingredients_loop]
    exact ih _ r (get_or_create_mono db p r hr)

theorem update_loop_assoc_mono (inst : Nat) (ps : List IngredientAmount) :
    ∀ db : DB, ∀ x ∈ db.recipeIngredients,
      x ∈ (update_ingredients_loop inst db ps).recipeIngredients := by
  induction ps with
  | nil => intro db x hx; exact hx
  | cons p ps ih =>
    intro db x hx
    rw [update_ingredients_loop]
    refine ih _ x ?_
    have g1 := (get_or_create_frame db p).1
    exact mem_m2m_add.mpr (Or.inl (g1.symm ▸ hx))

theorem update_loop_wf (inst : Nat) (ps : List IngredientAmount) :
    ∀ db : DB, JoinWf db → JoinWf (update_ingredients_loop inst db ps) := by
  induction ps with
  | nil => intro db h; exact h
  | cons p ps ih =>
    intro db h
    rw [update_ingredients_loop]
    exact ih _ (get_or_create_wf db p h)

theorem update_loop_pairs (inst : Nat) (ps : List IngredientAmount) :
    ∀ db : DB, pairsNodup db.joinRows →
      pairsNodup (update_ingredients_loop inst db ps).joinRows := by
  induction ps with
  | nil => intro db h; exact h
  | cons p ps ih =>
    intro db h
    rw [update_ingredients_loop]
    exact ih _ (get_or_create_pairs db p h)

theorem update_loop_rowsWithPair (inst : Nat) (ps : List IngredientAmount) :
    ∀ db : DB, ∀ i a : Nat,
      (∃ r ∈ db.joinRows, r.ingredient = i ∧ r.amount = a) →
      rowsWithPair (update_ingredients_loop inst db ps).joinRows i a =
        rowsWithPair db.joinRows i a := by
  induction ps with
  | nil => intro db i a _; rfl
  | cons p ps ih =>
    intro db i a h
    rw [update_ingredients_loop]
    refine Eq.trans (ih _ i a ?_) (get_or_create_rowsWithPair db p i a h)
    obtain ⟨r, hr, hri, hra⟩ := h
    exact ⟨r, get_or_create_mono db p r hr, hri, hra⟩

theorem update_loop_complete (inst : Nat) (ps : List IngredientAmount) :
    ∀ db : DB, ∀ p ∈ ps,
      ∃ r ∈ (update_ingredients_loop inst db ps).joinRows,
        r.ingredient = p.ingredient ∧ r.amount = p.amount ∧
        (inst, r.rid) ∈ (update_ingredients_loop inst db ps).recipeIngredients := by
  induction ps with
  | nil => intro db p hp; exact absurd hp (List.not_mem_nil p)
  | cons q ps ih =>
    intro db p hp
    rw [update_ingredients_loop]
    rcases List.mem_cons.mp hp with rfl | hp
    · obtain ⟨r, hr, hrid, hri, hra⟩ := get_or_create_returns db p
      refine ⟨r, update_loop_rows_mono inst ps _ r hr, hri, hra, ?_⟩
      refine update_loop_assoc_mono inst ps _ (inst, r.rid) ?_
      rw [hrid]
      exact mem_m2m_add.mpr (Or.inr rfl)
    · exact ih _ p hp

theorem update_loop_sound (inst : Nat) (ps : List IngredientAmount) :
    ∀ db : DB, ∀ j : Nat,
      (inst, j) ∈ (update_ingredients_loop inst db ps).recipeIngredients →
      (inst, j) ∈ db.recipeIngredients ∨
        ∃ p ∈ ps, ∃ r ∈ (update_ingredients_loop inst db ps).joinRows,
          r.rid = j ∧ r.ingredient = p.ingredient ∧ r.amount = p.amount := by
  induction ps with
  | nil => intro db j hj; exact Or.inl hj
  | cons p ps ih =>
    intro db j hj
    rw [update_ingredients_loop] at hj ⊢
    rcases ih _ j hj with hj2 | ⟨p2, hp2, r, hr, hrid, hri, hra⟩
    · rcases mem_m2m_add.mp hj2 with hj3 | hj3
      · exact Or.inl ((get_or_create_frame db p).1 ▸ hj3)
      · have hjeq : j = (get_or_create db p).2 := congrArg Prod.snd hj3
        obtain ⟨r, hr, hrid, hri, hra⟩ := get_or_create_returns db p
        refine Or.inr ⟨p, List.mem_cons_self p ps, r, ?_, hrid.trans hjeq.symm, hri, hra⟩
        exact update_loop_rows_mono inst ps _ r hr
    · exact Or.inr ⟨p2, List.mem_cons_of_mem p hp2, r, hr, hrid, hri, hra⟩

/-! ## Projection lemmas for the named write steps -/

theorem update_scalar_fields_recipeTags (db : DB) (inst : Nat) (vd : ValidatedRecipeData) :
    (update_scalar_fields db inst vd).recipeTags = db.recipeTags := rfl

theorem update_scalar_fields_joinRows (db : DB) (inst : Nat) (vd : ValidatedRecipeData) :
    (update_scalar_fields db inst vd).joinRows = db.joinRows := rfl

theorem update_scalar_fields_recipeIngredients (db : DB) (inst : Nat) (vd : ValidatedRecipeData) :
    (update_scalar_fields db inst vd).recipeIngredients = db.recipeIngredients := rfl

theorem clear_ingredients_recipeTags (db : DB) (inst : Nat) :
    (clear_ingredients db inst).recipeTags = db.recipeTags := rfl

theorem clear_ingredients_joinRows (db : DB) (inst : Nat) :
    (clear_ingredients db inst).joinRows = db.joinRows := rfl

theorem clear_ingredients_recipeIngredients (db : DB) (inst : Nat) :
    (clear_ingredients db inst).recipeIngredients = m2m_clear db.recipeIngredients inst := rfl

theorem clear_tags_recipeTags (db : DB) (inst : Nat) :
    (clear_tags db inst).recipeTags = m2m_clear db.recipeTags inst := rfl

theorem clear_tags_joinRows (db : DB) (inst : Nat) :
    (clear_tags db inst).joinRows = db.joinRows := rfl

/-- The final state of `create` is the tag loop applied to the state after
the ingredient m2m was set. -/
theorem create_db_eq (db : DB) (vd : ValidatedRecipeData) :
    (RecipeSerializer_create db vd).1 =
      add_tags_loop (insert_recipe db vd).2
        (set_recipe_ingredients
          (bulk_create_ignore_conflicts (insert_recipe db vd).1 vd.ingredients).1
          (insert_recipe db vd).2
          (create_queryset
            (bulk_create_ignore_conflicts (insert_recipe db vd).1 vd.ingredients).1
            vd.ingredients))
        vd.tags := rfl

theorem create_joinRows (db : DB) (vd : ValidatedRecipeData) :
    (RecipeSerializer_create db vd).1.joinRows =
      (bulk_create_ignore_conflicts (insert_recipe db vd).1 vd.ingredients).1.joinRows := by
  rw [create_db_eq]
  exact (add_tags_loop_frame (insert_recipe db vd).2 vd.tags _).2.1

theorem create_recipes (db : DB) (vd : ValidatedRecipeData) :
    (RecipeSerializer_create db vd).1.recipes =
      db.recipes ++ [⟨db.nextRecipeId, vd.name, vd.author, vd.text, vd.cooking_time⟩] := by
  rw [create_db_eq]
  have h1 := (add_tags_loop_frame (insert_recipe db vd).2 vd.tags
    (set_recipe_ingredients
      (bulk_create_ignore_conflicts (insert_recipe db vd).1 vd.ingredients).1
      (insert_recipe db vd).2
      (create_queryset
        (bulk_create_ignore_conflicts (insert_recipe db vd).1 vd.ingredients).1
        vd.ingredients))).1
  rw [h1]
  exact (bulk_create_frame vd.ingredients (insert_recipe db vd).1).1

/-! ## C2: full replacement on update -/

/-- C2: after `update`, the instance's tag associations are exactly the
payload's tag list and its associated join rows carry exactly the payload's
`(ingredient, amount)` pairs, regardless of the previous state of either
association (assuming distinct join-row primary keys). -/
theorem update_replaces_associations (db : DB) (inst : Nat) (vd : ValidatedRecipeData)
    (hwf : JoinWf db) :
    (∀ t : Nat, (inst, t) ∈ (RecipeSerializer_update db inst vd).recipeTags ↔ t ∈ vd.tags) ∧
    (∀ p ∈ vd.ingredients,
      ∃ r ∈ (RecipeSerializer_update db inst vd).joinRows,
        r.ingredient = p.ingredient ∧ r.amount = p.amount ∧
        (inst, r.rid) ∈ (RecipeSerializer_update db inst vd).recipeIngredients) ∧
    (∀ r ∈ (RecipeSerializer_update db inst vd).joinRows,
      (inst, r.rid) ∈ (RecipeSerializer_update db inst vd).recipeIngredients →
      ∃ p ∈ vd.ingredients, r.ingredient = p.ingredient ∧ r.amount = p.amount) := by
  unfold RecipeSerializer_update
  refine ⟨?_, ?_, ?_⟩
  · intro t
    rw [update_scalar_fields_recipeTags, (update_loop_frame inst vd.ingredients _).1,
      clear_ingredients_recipeTags, add_tags_loop_mem]
    constructor
    · rintro (hx | ⟨t2, ht2, heq⟩)
      · rw [clear_tags_recipeTags] at hx
        exact absurd hx not_mem_m2m_clear
      · obtain rfl : t = t2 := congrArg Prod.snd heq
        exact ht2
    · intro ht
      exact Or.inr ⟨t, ht, rfl⟩
  · intro p hp
    obtain ⟨r, hr, hri, hra, hassoc⟩ := update_loop_complete inst vd.ingredients
      (clear_ingredients (add_tags_loop inst (clear_tags db inst) vd.tags) inst) p hp
    refine ⟨r, ?_, hri, hra, ?_⟩
    · rw [update_scalar_fields_joinRows]; exact hr
    · rw [update_scalar_fields_recipeIngredients]; exact hassoc
  · intro r hr hassoc
    rw [update_scalar_fields_joinRows] at hr
    rw [update_scalar_fields_recipeIngredients] at hassoc
    rcases update_loop_sound inst vd.ingredients _ r.rid hassoc with
      h | ⟨p, hp, r2, hr2, hrid, hri, hra⟩
    · rw [clear_ingredients_recipeIngredients] at h
      exact absurd h not_mem_m2m_clear
    · have hwf4 : JoinWf (update_ingredients_loop inst
          (clear_ingredients (add_tags_loop inst (clear_tags db inst) vd.tags) inst)
          vd.ingredients) := by
        refine update_loop_wf inst vd.ingredients _ ?_
        obtain ⟨w1, w2⟩ := hwf
        constructor
        · rw [clear_ingredients_joinRows, (add_tags_loop_frame inst vd.tags _).2.1,
            clear_tags_joinRows]
          exact w1
        · intro rr hrr
          rw [clear_ingredients_joinRows, (add_tags_loop_frame inst vd.tags _).2.1,
            clear_tags_joinRows] at hrr
          have hnj : (clear_ingredients (add_tags_loop inst (clear_tags db inst) vd.tags)
              inst).nextJoinId = db.nextJoinId :=
            (add_tags_loop_frame inst vd.tags (clear_tags db inst)).2.2.2
          rw [hnj]
          exact w2 rr hrr
      have heq : r2 = r := List.inj_on_of_nodup_map hwf4.1 hr2 hr hrid
      exact ⟨p, hp, heq ▸ hri, heq ▸ hra⟩

/-- A database holding one join row `(0, 1, 2)`, one stale tag association
and one stale ingredient association for recipe 1. -/
def updateWitnessDb : DB :=
  { recipes := [⟨1, "old", 3, "o", 5⟩], joinRows := [⟨0, 1, 2⟩],
    recipeIngredients := [(1, 0)], recipeTags := [(1, 9)], favorites := [],
    shoppingCarts := [], nextRecipeId := 2, nextJoinId := 4 }

/-- A validated update payload carrying tag 7 and the pair `(2, 6)`. -/
def updateWitnessReq : ValidatedRecipeData :=
  { tags := [7], ingredients := [⟨2, 6⟩], name := "new", author := 3,
    text := "n", cooking_time := 8 }

/-- C2 witness: on the concrete state, the payload tag 7 is associated
after the update. -/
theorem update_replaces_associations_witness :
    (1, 7) ∈ (RecipeSerializer_update updateWitnessDb 1 updateWitnessReq).recipeTags :=
  ((update_replaces_associations updateWitnessDb 1 updateWitnessReq
    ⟨by decide, by decide⟩).1 7).mpr (by decide)

/-! ## C5: join-row writes are upserts -/

/-- C5: assuming the unique `(ingredient, amount)` constraint held before,
both `create` and `update` preserve it (at most one join row per pair), and
for every supplied pair that already has a join row the existing row set
for that pair is left unchanged — the row is reused, no new row is
created. -/
theorem join_row_writes_are_upserts (db : DB) (vd : ValidatedRecipeData) (inst : Nat)
    (h : pairsNodup db.joinRows) :
    pairsNodup (RecipeSerializer_create db vd).1.joinRows ∧
    pairsNodup (RecipeSerializer_update db inst vd).joinRows ∧
    ∀ p ∈ vd.ingredients,
      (∃ r ∈ db.joinRows, r.ingredient = p.ingredient ∧ r.amount = p.amount) →
        rowsWithPair (RecipeSerializer_create db vd).1.joinRows p.ingredient p.amount =
          rowsWithPair db.joinRows p.ingredient p.amount ∧
        rowsWithPair (RecipeSerializer_update db inst vd).joinRows p.ingredient p.amount =
          rowsWithPair db.joinRows p.ingredient p.amount := by
  have hupd : (RecipeSerializer_update db inst vd).joinRows =
      (update_ingredients_loop inst
        (clear_ingredients (add_tags_loop inst (clear_tags db inst) vd.tags) inst)
        vd.ingredients).joinRows := rfl
  have hclr : (clear_ingredients (add_tags_loop inst (clear_tags db inst) vd.tags)
      inst).joinRows = db.joinRows := by
    rw [clear_ingredients_joinRows, (add_tags_loop_frame inst vd.tags _).2.1, clear_tags_joinRows]
  refine ⟨?_, ?_, ?_⟩
  · rw [create_joinRows]
    exact bulk_create_pairs vd.ingredients (insert_recipe db vd).1 h
  · rw [hupd]
    refine update_loop_pairs inst vd.ingredients _ ?_
    unfold pairsNodup
    rw [hclr]
    exact h
  · intro p hp hex
    constructor
    · rw [create_joinRows]
      exact bulk_create_rowsWithPair vd.ingredients (insert_recipe db vd).1
        p.ingredient p.amount hex
    · rw [hupd]
      have hex2 : ∃ r ∈ (clear_ingredients (add_tags_loop inst (clear_tags db inst) vd.tags)
          inst).joinRows, r.ingredient = p.ingredient ∧ r.amount = p.amount := by
        rw [hclr]; exact hex
      rw [update_loop_rowsWithPair inst vd.ingredients _ p.ingredient p.amount hex2, hclr]

/-- C5 witness: the preservation of the unique-pair constraint through a
concrete create. -/
theorem join_row_writes_are_upserts_witness :
    pairsNodup (RecipeSerializer_create updateWitnessDb updateWitnessReq).1.joinRows :=
  (join_row_writes_are_upserts updateWitnessDb updateWitnessReq 1
    (by unfold pairsNodup; decide)).1

/-! ## C7: the `(name, author)` unique-together validator -/

theorem validate_ok_id (vd x : ValidatedRecipeData)
    (h : RecipeSerializer_validate vd = Except.ok x) : x = vd := by
  simp only [RecipeSerializer_validate, check_for_dublicates] at h
  split at h
  · simp at h
  · split at h
    · simp at h
    · simpa using h.symm

/-- C7: a create payload whose `(name, author)` pair matches a stored
recipe is rejected by the `UniqueTogetherValidator` with the message
"Вы уже создавали такой рецепт." and the database is left untouched; and a
successful create preserves the uniqueness of `(name, author)` across
stored recipes. -/
theorem duplicate_recipe_rejected (db : DB) (vd : ValidatedRecipeData) :
    ((∃ r ∈ db.recipes, r.name = vd.name ∧ r.author = vd.author) →
      run_create db vd = (db, Except.error "Вы уже создавали такой рецепт.")) ∧
    (namesUniquePerAuthor db.recipes →
      ∀ db2 : DB, ∀ rid : Nat, run_create db vd = (db2, Except.ok rid) →
        namesUniquePerAuthor db2.recipes) := by
  constructor
  · intro h
    unfold run_create unique_together_check
    have hany : db.recipes.any (fun r => r.name == vd.name && r.author == vd.author) = true := by
      rw [List.any_eq_true]
      obtain ⟨r, hr, h1, h2⟩ := h
      exact ⟨r, hr, by simp [h1, h2]⟩
    rw [hany]
    rfl
  · intro hu db2 rid hrun
    unfold run_create unique_together_check at hrun
    cases hany : db.recipes.any (fun r => r.name == vd.name && r.author == vd.author) <;>
      rw [hany] at hrun
    · cases hval : RecipeSerializer_validate vd with
      | error e =>
        rw [hval] at hrun
        have hcontr : Except.error e = Except.ok rid := congrArg Prod.snd hrun
        exact absurd hcontr (by simp)
      | ok vd2 =>
        rw [hval] at hrun
        obtain rfl := validate_ok_id vd vd2 hval
        have hdb2 : (RecipeSerializer_create db vd2).1 = db2 := congrArg Prod.fst hrun
        rw [← hdb2, create_recipes]
        have hall := List.any_eq_false.mp hany
        unfold namesUniquePerAuthor at hu ⊢
        rw [List.map_append, List.nodup_append]
        refine ⟨hu, List.nodup_singleton _, ?_⟩
        intro x hx hx2
        simp only [List.map_cons, List.map_nil, List.mem_singleton] at hx2
        obtain ⟨r, hr, hrx⟩ := List.mem_map.mp hx
        subst hx2
        have hcontr := hall r hr
        simp only [Bool.and_eq_true, beq_iff_eq, not_and] at hcontr
        exact hcontr (congrArg Prod.fst hrx) (congrArg Prod.snd hrx)
    · have hcontr2 : Except.error "Вы уже создавали такой рецепт." = Except.ok rid :=
        congrArg Prod.snd hrun
      exact absurd hcontr2 (by simp)

/-- C7 witness: author 3 already has a recipe named "new", so the same
payload is rejected with the duplicate-recipe message and the state is
unchanged. -/
theorem duplicate_recipe_rejected_witness :
    run_create
        { recipes := [⟨1, "new", 3, "o", 5⟩], joinRows := [], recipeIngredients := [],
          recipeTags := [], favorites := [], shoppingCarts := [], nextRecipeId := 2,
          nextJoinId := 0 }
        updateWitnessReq =
      ({ recipes := [⟨1, "new", 3, "o", 5⟩], joinRows := [], recipeIngredients := [],
          recipeTags := [], favorites := [], shoppingCarts := [], nextRecipeId := 2,
          nextJoinId := 0 },
        Except.error "Вы уже создавали такой рецепт.") :=
  (duplicate_recipe_rejected _ updateWitnessReq).1 (by decide)

end Foodgram
